import Mathlib

/-!
# yarpc-go: Thrift option set and HTTP inbound lifecycle

A shallow embedding of `encoding/thrift/options.go` (the functional options of
the Thrift encoding) and of the lifecycle of the HTTP `Inbound` exercised by
`transport/http/inbound_test.go`.

Go passes the config by pointer and the option mutates it in place; here an
`apply` method takes the config and returns the config after the call.
`protocol.Protocol` is an interface of the thriftrw library, so the codec type
is a parameter `P` of the development (the nil interface value is one of its
inhabitants).
-/

namespace thrift

/-! ## Data model (options.go, lines 25-51) -/

/-- The struct `clientConfig` of options.go, line 25. -/
structure clientConfig (P : Type) where
  Protocol : P
  DisableEnveloping : Bool
  Multiplexed : Bool
  deriving DecidableEq, Repr

/-- The struct `registerConfig` of options.go, line 36. -/
structure registerConfig (P : Type) where
  Protocol : P
  DisableEnveloping : Bool
  deriving DecidableEq, Repr

/-- The interface `ClientOption` of options.go, line 32: a value of one of the
types that declare `applyClientOption`, which are `disableEnvelopingOption`
(line 67), `multiplexedOption` (line 87) and `protocolOption` (line 93). -/
inductive ClientOption (P : Type) where
  | disableEnvelopingOption : ClientOption P
  | multiplexedOption : ClientOption P
  | protocolOption (Protocol : P) : ClientOption P
  deriving DecidableEq, Repr

/-- The interface `RegisterOption` of options.go, line 43: a value of one of the
types that declare `applyRegisterOption`, which are `disableEnvelopingOption`
(line 71) and `protocolOption` (line 97); `multiplexedOption` declares none. -/
inductive RegisterOption (P : Type) where
  | disableEnvelopingOption : RegisterOption P
  | protocolOption (Protocol : P) : RegisterOption P
  deriving DecidableEq, Repr

/-- The interface `Option` of options.go, line 48, which embeds `ClientOption`
and `RegisterOption`: a value of a type that declares both methods. -/
inductive Option (P : Type) where
  | disableEnvelopingOption : Option P
  | protocolOption (Protocol : P) : Option P
  deriving DecidableEq, Repr

/-- An `Option` used where a `ClientOption` is expected (the embedded
interface). -/
def Option.toClientOption {P : Type} : Option P → ClientOption P
  | .disableEnvelopingOption => .disableEnvelopingOption
  | .protocolOption p => .protocolOption p

/-- An `Option` used where a `RegisterOption` is expected (the embedded
interface). -/
def Option.toRegisterOption {P : Type} : Option P → RegisterOption P
  | .disableEnvelopingOption => .disableEnvelopingOption
  | .protocolOption p => .protocolOption p

/-! ## The options (options.go, lines 53-114) -/

/-- The variable `DisableEnveloping` of options.go, line 63. -/
def DisableEnveloping {P : Type} : Option P := .disableEnvelopingOption

/-- The variable `Multiplexed` of options.go, line 83. -/
def Multiplexed {P : Type} : ClientOption P := .multiplexedOption

/-- The function `Protocol` of options.go, line 112. -/
def Protocol {P : Type} (p : P) : Option P := .protocolOption p

/-- The method `applyClientOption` of the three option types (options.go, lines
67, 87 and 93), dispatched on the dynamic type of the option. -/
def ClientOption.applyClientOption {P : Type} :
    ClientOption P → clientConfig P → clientConfig P
  | .disableEnvelopingOption, c => { c with DisableEnveloping := true }
  | .multiplexedOption, c => { c with Multiplexed := true }
  | .protocolOption p, c => { c with Protocol := p }

/-- The method `applyRegisterOption` of the two option types that have it
(options.go, lines 71 and 97), dispatched on the dynamic type of the option. -/
def RegisterOption.applyRegisterOption {P : Type} :
    RegisterOption P → registerConfig P → registerConfig P
  | .disableEnvelopingOption, c => { c with DisableEnveloping := true }
  | .protocolOption p, c => { c with Protocol := p }

/-- Modelled from the spec: the loop that applies a client's options, which is
in the client constructor and not in options.go. Section 9: the options are
"applied in sequence over an ordered list". -/
def applyClientOptions {P : Type} (opts : List (ClientOption P)) (c : clientConfig P) :
    clientConfig P :=
  opts.foldl (fun cc opt => opt.applyClientOption cc) c

/-- Modelled from the spec: the loop that applies the options of a registration,
which is in the registration code and not in options.go. Section 9: the options
are "applied in sequence over an ordered list". -/
def applyRegisterOptions {P : Type} (opts : List (RegisterOption P)) (c : registerConfig P) :
    registerConfig P :=
  opts.foldl (fun cc opt => opt.applyRegisterOption cc) c

/-- Whether a client option is a `protocolOption`. -/
def ClientOption.isProtocol {P : Type} : ClientOption P → Bool
  | .protocolOption _ => true
  | _ => false

/-- Whether a register option is a `protocolOption`. -/
def RegisterOption.isProtocol {P : Type} : RegisterOption P → Bool
  | .protocolOption _ => true
  | _ => false

/-- The codecs carried by the `protocolOption` values of a list of client
options, in the order of the list. -/
def clientCodecs {P : Type} : List (ClientOption P) → List P
  | [] => []
  | .disableEnvelopingOption :: rest => clientCodecs rest
  | .multiplexedOption :: rest => clientCodecs rest
  | .protocolOption p :: rest => p :: clientCodecs rest

/-- The codecs carried by the `protocolOption` values of a list of register
options, in the order of the list. -/
def registerCodecs {P : Type} : List (RegisterOption P) → List P
  | [] => []
  | .disableEnvelopingOption :: rest => registerCodecs rest
  | .protocolOption p :: rest => p :: registerCodecs rest

/-- Modelled from the spec: the construction of a fresh client config, which is
in the client constructor and not in options.go. Section 4.1: "Default codec if
none specified: a designated default (e.g., a standard binary codec)"; the doc
comment of `Protocol` (options.go, line 111): "It defaults to the Binary
protocol." Both flags start false, the zero value of a Go bool. -/
def newClientConfig {P : Type} (Binary : P) : clientConfig P :=
  { Protocol := Binary, DisableEnveloping := false, Multiplexed := false }

/-- Modelled from the spec: the construction of a fresh register config, which
is in the registration code and not in options.go. Section 4.1: "Default codec
if none specified: a designated default (e.g., a standard binary codec)". -/
def newRegisterConfig {P : Type} (Binary : P) : registerConfig P :=
  { Protocol := Binary, DisableEnveloping := false }

end thrift

/-! ## The HTTP inbound (transport/http)

This part covers the lifecycle that inbound_test.go exercises. The definitions
follow section 4.3 of the specification; the host's table of bound ports is
threaded through `Start` and `Stop` as explicit state.
-/

namespace http

/-- Modelled from the spec: the address given to `NewInbound`, which the missing
inbound.go hands to the listener. `port n` is the string ":n" (the tests use
":0", ":8000" and the address of a running inbound), where port 0 asks the host
for a free port; `invalid` is a string that names no address (the test's
"invalid"). -/
inductive AddrSpec where
  | port (n : Nat) : AddrSpec
  | invalid : AddrSpec
  deriving DecidableEq, Repr

/-- Modelled from the spec: the states of an `Inbound`, section 4.3. Of "idle →
starting → running → stopping → idle" the two transient states lie inside one
call of `Start` or `Stop` and are not observable between calls. -/
inductive State where
  | idle : State
  | running : State
  deriving DecidableEq, Repr

/-- Modelled from the spec: the errors of `Start`, sections 4.3, 5 and 7.
`addrInUse` is the listen error whose cause is the bind error EADDRINUSE, as
TestStartAddrInUse expects; `invalidAddr` is the listen error for an address
that cannot be bound at all; `alreadyStarted` is the "already-started" error of
section 5. -/
inductive Error where
  | addrInUse : Error
  | invalidAddr : Error
  | alreadyStarted : Error
  deriving DecidableEq, Repr

/-- Modelled from the spec: the ports currently bound on the host, the shared
resource for which inbounds compete ("address already in use"). -/
abbrev Net := List Nat

/-- Modelled from the spec: the `Inbound` object of the missing inbound.go: its
configured address, its lifecycle state and its listener's bound port. -/
structure Inbound where
  addr : AddrSpec
  state : State
  listener : Option Nat
  deriving DecidableEq, Repr

/-- The result of a lifecycle call: the returned Go `error` (none for nil), the
inbound after the call and the host's bound ports after the call. -/
structure Outcome where
  err : Option Error
  inbound : Inbound
  net : Net
  deriving DecidableEq, Repr

/-- Modelled from the spec: `NewInbound` of the missing inbound.go. Section 4.3:
an inbound is "idle (constructed, not started)"; section 3: the address is
"nil/absent before start". -/
def NewInbound (addr : AddrSpec) : Inbound :=
  { addr := addr, state := .idle, listener := none }

/-- Modelled from the spec: `Addr()` of the missing inbound.go. Section 4.3:
"returns the bound address while running; returns an absent value in all other
states." -/
def Inbound.Addr (i : Inbound) : Option Nat :=
  match i.state with
  | .running => i.listener
  | .idle => none

/-- A port that is not bound and is not 0: one more than the largest bound
port. -/
def freePort (net : Net) : Nat :=
  net.foldr max 0 + 1

/-- Modelled from the spec: binding the configured address, the host side of
`Start` (section 4.3, "Must bind the configured address; on bind failure (e.g.,
address already in use) returns a classified network error"). Port 0 yields a
free port chosen by the host. -/
def listen (net : Net) : AddrSpec → Except Error Nat
  | .invalid => .error .invalidAddr
  | .port 0 => .ok (freePort net)
  | .port (n + 1) => if n + 1 ∈ net then .error .addrInUse else .ok (n + 1)

/-- Modelled from the spec: `Start()` of the missing inbound.go. Section 4.3:
"idle→starting→running. Must bind the configured address; on bind failure
(e.g., address already in use) returns a classified network error and remains
idle — no partial state leak (address stays unset)"; section 5: a `Start` that
finds the inbound started "fails with an already-started or bind error". -/
def Inbound.Start (i : Inbound) (net : Net) : Outcome :=
  match i.state with
  | .running => { err := some .alreadyStarted, inbound := i, net := net }
  | .idle =>
    match listen net i.addr with
    | .error e => { err := some e, inbound := i, net := net }
    | .ok a =>
      { err := none
        inbound := { i with state := .running, listener := some a }
        net := a :: net }

/-- Modelled from the spec: `Stop()` of the missing inbound.go. Section 4.3:
"running→stopping→idle. Must be idempotent: calling Stop() on an already-idle
instance (including one that never started) succeeds as a no-op"; the states
list has "idle (address cleared)", so the listener's port is released. -/
def Inbound.Stop (i : Inbound) (net : Net) : Outcome :=
  match i.state with
  | .idle => { err := none, inbound := i, net := net }
  | .running =>
    { err := none
      inbound := { i with state := .idle, listener := none }
      net := match i.listener with
        | some a => net.erase a
        | none => net }

/-- A call of `Stop()` on the inbound of an outcome, on the host as that outcome
left it. -/
def Outcome.thenStop (o : Outcome) : Outcome :=
  o.inbound.Stop o.net

end http

/-! ## Lemmas on the application of a list of options -/

theorem applyClientOptions_nil {P : Type} (c : thrift.clientConfig P) :
    thrift.applyClientOptions [] c = c := rfl

theorem applyClientOptions_cons {P : Type} (o : thrift.ClientOption P) (rest : List (thrift.ClientOption P))
    (c : thrift.clientConfig P) :
    thrift.applyClientOptions (o :: rest) c
      = thrift.applyClientOptions rest (o.applyClientOption c) := rfl

theorem applyRegisterOptions_nil {P : Type} (c : thrift.registerConfig P) :
    thrift.applyRegisterOptions [] c = c := rfl

theorem applyRegisterOptions_cons {P : Type} (o : thrift.RegisterOption P)
    (rest : List (thrift.RegisterOption P)) (c : thrift.registerConfig P) :
    thrift.applyRegisterOptions (o :: rest) c
      = thrift.applyRegisterOptions rest (o.applyRegisterOption c) := rfl

/-- The codec after a list of client options is the last element of the starting
codec followed by the codecs of the list. -/
theorem client_protocol_eq_getLast {P : Type} (opts : List (thrift.ClientOption P))
    (c : thrift.clientConfig P) :
    (thrift.applyClientOptions opts c).Protocol
      = (c.Protocol :: thrift.clientCodecs opts).getLast (List.cons_ne_nil _ _) := by
  induction opts generalizing c with
  | nil => rfl
  | cons o rest ih =>
    rw [applyClientOptions_cons, ih]
    cases o with
    | disableEnvelopingOption => rfl
    | multiplexedOption => rfl
    | protocolOption p =>
      show (p :: thrift.clientCodecs rest).getLast _
        = (c.Protocol :: p :: thrift.clientCodecs rest).getLast _
      rw [List.getLast_cons (List.cons_ne_nil p _)]

/-- The codec after a list of register options is the last element of the
starting codec followed by the codecs of the list. -/
theorem register_protocol_eq_getLast {P : Type} (opts : List (thrift.RegisterOption P))
    (c : thrift.registerConfig P) :
    (thrift.applyRegisterOptions opts c).Protocol
      = (c.Protocol :: thrift.registerCodecs opts).getLast (List.cons_ne_nil _ _) := by
  induction opts generalizing c with
  | nil => rfl
  | cons o rest ih =>
    rw [applyRegisterOptions_cons, ih]
    cases o with
    | disableEnvelopingOption => rfl
    | protocolOption p =>
      show (p :: thrift.registerCodecs rest).getLast _
        = (c.Protocol :: p :: thrift.registerCodecs rest).getLast _
      rw [List.getLast_cons (List.cons_ne_nil p _)]

/-- The enveloping flag after a list of client options. -/
theorem client_disableEnveloping_iff {P : Type} (opts : List (thrift.ClientOption P))
    (c : thrift.clientConfig P) :
    (thrift.applyClientOptions opts c).DisableEnveloping = true
      ↔ c.DisableEnveloping = true ∨ thrift.ClientOption.disableEnvelopingOption ∈ opts := by
  induction opts generalizing c with
  | nil => simp [applyClientOptions_nil]
  | cons o rest ih =>
    rw [applyClientOptions_cons, ih]
    cases o <;> simp [thrift.ClientOption.applyClientOption]

/-- The multiplexing flag after a list of client options. -/
theorem client_multiplexed_iff {P : Type} (opts : List (thrift.ClientOption P))
    (c : thrift.clientConfig P) :
    (thrift.applyClientOptions opts c).Multiplexed = true
      ↔ c.Multiplexed = true ∨ thrift.ClientOption.multiplexedOption ∈ opts := by
  induction opts generalizing c with
  | nil => simp [applyClientOptions_nil]
  | cons o rest ih =>
    rw [applyClientOptions_cons, ih]
    cases o <;> simp [thrift.ClientOption.applyClientOption]

/-- Permuting a list of client options permutes the codecs it carries. -/
theorem clientCodecs_perm {P : Type} {l l' : List (thrift.ClientOption P)} (h : l.Perm l') :
    (thrift.clientCodecs l).Perm (thrift.clientCodecs l') := by
  induction h with
  | nil => exact List.Perm.refl _
  | cons x _ ih =>
    cases x with
    | disableEnvelopingOption => exact ih
    | multiplexedOption => exact ih
    | protocolOption p => exact List.Perm.cons p ih
  | swap x y l =>
    cases x <;> cases y <;>
      first
        | exact List.Perm.refl _
        | exact List.Perm.swap _ _ _
  | trans _ _ ih1 ih2 => exact ih1.trans ih2

/-- The number of codecs carried by a list is its number of Protocol options. -/
theorem clientCodecs_length {P : Type} (l : List (thrift.ClientOption P)) :
    (thrift.clientCodecs l).length = l.countP thrift.ClientOption.isProtocol := by
  induction l with
  | nil => rfl
  | cons x rest ih =>
    cases x <;>
      simp [thrift.clientCodecs, thrift.ClientOption.isProtocol, ih]

/-- A list without Protocol options carries no codec. -/
theorem clientCodecs_eq_nil {P : Type} (l : List (thrift.ClientOption P))
    (h : ∀ o ∈ l, o.isProtocol = false) : thrift.clientCodecs l = [] := by
  induction l with
  | nil => rfl
  | cons x rest ih =>
    have hx := h x (List.mem_cons_self _ _)
    have hrest := ih (fun o ho => h o (List.mem_cons_of_mem _ ho))
    cases x with
    | disableEnvelopingOption => exact hrest
    | multiplexedOption => exact hrest
    | protocolOption p => simp [thrift.ClientOption.isProtocol] at hx

/-- A list without Protocol options carries no codec. -/
theorem registerCodecs_eq_nil {P : Type} (l : List (thrift.RegisterOption P))
    (h : ∀ o ∈ l, o.isProtocol = false) : thrift.registerCodecs l = [] := by
  induction l with
  | nil => rfl
  | cons x rest ih =>
    have hx := h x (List.mem_cons_self _ _)
    have hrest := ih (fun o ho => h o (List.mem_cons_of_mem _ ho))
    cases x with
    | disableEnvelopingOption => exact hrest
    | protocolOption p => simp [thrift.RegisterOption.isProtocol] at hx

/-- A list with a Protocol option carries a codec. -/
theorem clientCodecs_ne_nil {P : Type} (l : List (thrift.ClientOption P))
    (h : ∃ p, thrift.ClientOption.protocolOption p ∈ l) : thrift.clientCodecs l ≠ [] := by
  intro hnil
  obtain ⟨p, hp⟩ := h
  have hlen := clientCodecs_length l
  rw [hnil] at hlen
  have hpos : 0 < l.countP thrift.ClientOption.isProtocol :=
    List.countP_pos_iff.mpr ⟨_, hp, rfl⟩
  simp at hlen
  omega

/-- A list with a Protocol option carries a codec. -/
theorem registerCodecs_ne_nil {P : Type} (l : List (thrift.RegisterOption P))
    (h : ∃ p, thrift.RegisterOption.protocolOption p ∈ l) : thrift.registerCodecs l ≠ [] := by
  obtain ⟨p, hp⟩ := h
  induction l with
  | nil => simp at hp
  | cons x rest ih =>
    cases x with
    | disableEnvelopingOption =>
      have : thrift.RegisterOption.protocolOption p ∈ rest := by simpa using hp
      exact ih this
    | protocolOption q => simp [thrift.registerCodecs]

/-- Two client configs with the same three fields are the same config. -/
theorem clientConfig_eq {P : Type} (a b : thrift.clientConfig P)
    (h1 : a.Protocol = b.Protocol) (h2 : a.DisableEnveloping = b.DisableEnveloping)
    (h3 : a.Multiplexed = b.Multiplexed) : a = b := by
  cases a
  cases b
  simp_all

/-- Two permutations of one another with at most one element are equal. -/
theorem perm_eq_of_length_le_one {α : Type} {l l' : List α} (h : l'.Perm l)
    (hlen : l.length ≤ 1) : l' = l := by
  match l, hlen with
  | [], _ => exact h.eq_nil
  | [a], _ => exact List.perm_singleton.mp h

/-! ## The claims on the option set -/

/-- C1: for a list of options applied in order to a starting client config or
register config, if the list contains at least one Protocol option then the
codec of the resulting config is the codec carried by the last Protocol option
of the list, whatever the starting codec and the other options. -/
theorem protocol_last_write_wins {P : Type}
    (copts : List (thrift.ClientOption P)) (c : thrift.clientConfig P)
    (ropts : List (thrift.RegisterOption P)) (r : thrift.registerConfig P)
    (hc : ∃ p, thrift.ClientOption.protocolOption p ∈ copts)
    (hr : ∃ p, thrift.RegisterOption.protocolOption p ∈ ropts) :
    (thrift.clientCodecs copts).getLast? = some (thrift.applyClientOptions copts c).Protocol
      ∧ (thrift.registerCodecs ropts).getLast?
          = some (thrift.applyRegisterOptions ropts r).Protocol := by
  have hc' := clientCodecs_ne_nil copts hc
  have hr' := registerCodecs_ne_nil ropts hr
  constructor
  · rw [List.getLast?_eq_getLast _ hc', client_protocol_eq_getLast, List.getLast_cons hc']
  · rw [List.getLast?_eq_getLast _ hr', register_protocol_eq_getLast, List.getLast_cons hr']

/-- Witness of C1: two Protocol options with other options before, between and
after them; the codec of the second one is the resulting codec. -/
theorem protocol_last_write_wins_witness :
    (thrift.applyClientOptions
        [thrift.Multiplexed, (thrift.Protocol 1).toClientOption, thrift.Multiplexed,
         (thrift.Protocol 2).toClientOption, thrift.DisableEnveloping.toClientOption]
        { Protocol := 0, DisableEnveloping := false, Multiplexed := false }).Protocol = 2
      ∧ (thrift.applyRegisterOptions
        [(thrift.Protocol 1).toRegisterOption, thrift.DisableEnveloping.toRegisterOption,
         (thrift.Protocol 2).toRegisterOption]
        { Protocol := 0, DisableEnveloping := true }).Protocol = 2 := by
  have h := protocol_last_write_wins
    [thrift.Multiplexed, (thrift.Protocol 1).toClientOption, thrift.Multiplexed,
     (thrift.Protocol 2).toClientOption, thrift.DisableEnveloping.toClientOption]
    { Protocol := 0, DisableEnveloping := false, Multiplexed := false }
    [(thrift.Protocol 1).toRegisterOption, thrift.DisableEnveloping.toRegisterOption,
     (thrift.Protocol 2).toRegisterOption]
    { Protocol := 0, DisableEnveloping := true }
    ⟨1, by decide⟩ ⟨1, by decide⟩
  exact ⟨(Option.some.inj h.1).symm, (Option.some.inj h.2).symm⟩

/-- C2: for every starting client config and every list of client options with
at most one Protocol option, applying any permutation of the list in order
yields the same final config as applying the list itself. -/
theorem client_options_perm_invariant {P : Type} (c : thrift.clientConfig P)
    (opts opts' : List (thrift.ClientOption P)) (hperm : opts'.Perm opts)
    (hone : opts.countP thrift.ClientOption.isProtocol ≤ 1) :
    thrift.applyClientOptions opts' c = thrift.applyClientOptions opts c := by
  have hcodecs : thrift.clientCodecs opts' = thrift.clientCodecs opts :=
    perm_eq_of_length_le_one (clientCodecs_perm hperm) (by rw [clientCodecs_length]; exact hone)
  apply clientConfig_eq
  · rw [client_protocol_eq_getLast, client_protocol_eq_getLast]
    simp only [hcodecs]
  · rw [Bool.eq_iff_iff, client_disableEnveloping_iff, client_disableEnveloping_iff,
      hperm.mem_iff]
  · rw [Bool.eq_iff_iff, client_multiplexed_iff, client_multiplexed_iff, hperm.mem_iff]

/-- Witness of C2: a list with one Protocol option and its reversal. -/
theorem client_options_perm_invariant_witness :
    thrift.applyClientOptions
        [(thrift.Protocol 7).toClientOption, thrift.Multiplexed,
         thrift.DisableEnveloping.toClientOption]
        { Protocol := 0, DisableEnveloping := false, Multiplexed := false }
      = thrift.applyClientOptions
        [thrift.DisableEnveloping.toClientOption, thrift.Multiplexed,
         (thrift.Protocol 7).toClientOption]
        { Protocol := 0, DisableEnveloping := false, Multiplexed := false } :=
  client_options_perm_invariant
    { Protocol := 0, DisableEnveloping := false, Multiplexed := false }
    [thrift.DisableEnveloping.toClientOption, thrift.Multiplexed,
     (thrift.Protocol 7).toClientOption]
    [(thrift.Protocol 7).toClientOption, thrift.Multiplexed,
     thrift.DisableEnveloping.toClientOption]
    (by decide) (by decide)

/-- C3: applying DisableEnveloping to a client config or to a register config
yields that config with the DisableEnveloping field true and every other field
(Protocol, and Multiplexed on the client config) unchanged. -/
theorem disableEnveloping_sets_only_its_field {P : Type} (c : thrift.clientConfig P)
    (r : thrift.registerConfig P) :
    thrift.DisableEnveloping.toClientOption.applyClientOption c
        = { Protocol := c.Protocol, DisableEnveloping := true, Multiplexed := c.Multiplexed }
      ∧ thrift.DisableEnveloping.toRegisterOption.applyRegisterOption r
        = { Protocol := r.Protocol, DisableEnveloping := true } :=
  ⟨rfl, rfl⟩

/-- C4: applying Protocol(p) to a client config or to a register config yields
that config with the Protocol field equal to p and every other field
(DisableEnveloping, and Multiplexed on the client config) unchanged. -/
theorem protocol_sets_only_its_field {P : Type} (p : P) (c : thrift.clientConfig P)
    (r : thrift.registerConfig P) :
    (thrift.Protocol p).toClientOption.applyClientOption c
        = { Protocol := p, DisableEnveloping := c.DisableEnveloping,
            Multiplexed := c.Multiplexed }
      ∧ (thrift.Protocol p).toRegisterOption.applyRegisterOption r
        = { Protocol := p, DisableEnveloping := r.DisableEnveloping } :=
  ⟨rfl, rfl⟩

/-- C5: applying Multiplexed to a client config yields that config with
Multiplexed true and with Protocol and DisableEnveloping unchanged; Multiplexed
is client-only: it is none of the shared options (the values of the interface
Option), and every sequence of register options is a sequence of shared
options, so Multiplexed occurs in no sequence applied to a register config. -/
theorem multiplexed_client_only {P : Type} (c : thrift.clientConfig P)
    (ropts : List (thrift.RegisterOption P)) :
    thrift.Multiplexed.applyClientOption c
        = { Protocol := c.Protocol, DisableEnveloping := c.DisableEnveloping,
            Multiplexed := true }
      ∧ (∀ o : thrift.Option P, o.toClientOption ≠ thrift.Multiplexed)
      ∧ ∃ os : List (thrift.Option P),
          ropts = os.map thrift.Option.toRegisterOption
            ∧ thrift.Multiplexed ∉ os.map thrift.Option.toClientOption := by
  refine ⟨rfl, ?_, ?_⟩
  · intro o h
    cases o <;> simp [thrift.Option.toClientOption, thrift.Multiplexed] at h
  · induction ropts with
    | nil => exact ⟨[], rfl, by simp⟩
    | cons x rest ih =>
      obtain ⟨os, hos, hnot⟩ := ih
      cases x with
      | disableEnvelopingOption =>
        refine ⟨thrift.Option.disableEnvelopingOption :: os, ?_, ?_⟩
        · simp [hos, thrift.Option.toRegisterOption]
        · intro hmem
          rcases List.mem_cons.mp hmem with h | h
          · simp [thrift.Option.toClientOption, thrift.Multiplexed] at h
          · exact hnot h
      | protocolOption p =>
        refine ⟨thrift.Option.protocolOption p :: os, ?_, ?_⟩
        · simp [hos, thrift.Option.toRegisterOption]
        · intro hmem
          rcases List.mem_cons.mp hmem with h | h
          · simp [thrift.Option.toClientOption, thrift.Multiplexed] at h
          · exact hnot h

/-- C6: for a list of client options and a list of register options without any
Protocol option (the empty lists included), the config built by applying the
list to a freshly constructed client config or register config has the Binary
protocol as its codec. -/
theorem default_protocol_is_binary {P : Type} (Binary : P)
    (copts : List (thrift.ClientOption P)) (ropts : List (thrift.RegisterOption P))
    (hc : ∀ o ∈ copts, o.isProtocol = false) (hr : ∀ o ∈ ropts, o.isProtocol = false) :
    (thrift.applyClientOptions copts (thrift.newClientConfig Binary)).Protocol = Binary
      ∧ (thrift.applyRegisterOptions ropts (thrift.newRegisterConfig Binary)).Protocol
          = Binary := by
  constructor
  · simp [client_protocol_eq_getLast, clientCodecs_eq_nil copts hc, thrift.newClientConfig]
  · simp [register_protocol_eq_getLast, registerCodecs_eq_nil ropts hr,
      thrift.newRegisterConfig]

/-- Witness of C6: the two flag options on a fresh client config, no option on a
fresh register config; the codec 0 stands for Binary. -/
theorem default_protocol_is_binary_witness :
    (thrift.applyClientOptions
        [thrift.Multiplexed, thrift.DisableEnveloping.toClientOption]
        (thrift.newClientConfig 0)).Protocol = 0
      ∧ (thrift.applyRegisterOptions [] (thrift.newRegisterConfig 0)).Protocol = 0 :=
  default_protocol_is_binary 0
    [thrift.Multiplexed, thrift.DisableEnveloping.toClientOption] []
    (by decide) (by decide)

/-- C10: for every starting client config and every list of client options
applied in order, the resulting DisableEnveloping flag is true exactly when it
was true at the start or the list contains DisableEnveloping, and the resulting
Multiplexed flag is true exactly when it was true at the start or the list
contains Multiplexed; so a flag that is set at the start is set at the end. -/
theorem client_flags_only_set {P : Type} (c : thrift.clientConfig P)
    (opts : List (thrift.ClientOption P)) :
    ((thrift.applyClientOptions opts c).DisableEnveloping = true
        ↔ c.DisableEnveloping = true ∨ thrift.DisableEnveloping.toClientOption ∈ opts)
      ∧ ((thrift.applyClientOptions opts c).Multiplexed = true
        ↔ c.Multiplexed = true ∨ thrift.Multiplexed ∈ opts)
      ∧ (c.DisableEnveloping = true
        → (thrift.applyClientOptions opts c).DisableEnveloping = true)
      ∧ (c.Multiplexed = true → (thrift.applyClientOptions opts c).Multiplexed = true) :=
  ⟨client_disableEnveloping_iff opts c, client_multiplexed_iff opts c,
    fun h => (client_disableEnveloping_iff opts c).mpr (Or.inl h),
    fun h => (client_multiplexed_iff opts c).mpr (Or.inl h)⟩

/-- Witness of C10: a config that starts with both flags set keeps them through
a list of all three kinds of option. -/
theorem client_flags_only_set_witness :
    (thrift.applyClientOptions
        [(thrift.Protocol 3).toClientOption, thrift.DisableEnveloping.toClientOption,
         thrift.Multiplexed]
        { Protocol := 0, DisableEnveloping := true, Multiplexed := true }).DisableEnveloping
        = true
      ∧ (thrift.applyClientOptions
        [(thrift.Protocol 3).toClientOption, thrift.DisableEnveloping.toClientOption,
         thrift.Multiplexed]
        { Protocol := 0, DisableEnveloping := true, Multiplexed := true }).Multiplexed
        = true :=
  ⟨(client_flags_only_set _ _).2.2.1 rfl, (client_flags_only_set _ _).2.2.2 rfl⟩

/-! ## Lemmas on the inbound lifecycle -/

/-- On an idle inbound, `Start` fails with the error of the bind and changes
nothing. -/
theorem start_idle_of_listen_error (i : http.Inbound) (net : http.Net) (e : http.Error)
    (hidle : i.state = http.State.idle) (hl : http.listen net i.addr = Except.error e) :
    i.Start net = { err := some e, inbound := i, net := net } := by
  simp [http.Inbound.Start, hidle, hl]

/-- On an idle inbound, `Start` succeeds with the port of the bind. -/
theorem start_idle_of_listen_ok (i : http.Inbound) (net : http.Net) (a : Nat)
    (hidle : i.state = http.State.idle) (hl : http.listen net i.addr = Except.ok a) :
    i.Start net
      = { err := none
          inbound := { addr := i.addr, state := http.State.running, listener := some a }
          net := a :: net } := by
  simp [http.Inbound.Start, hidle, hl]

/-- A bind that succeeds yields a port other than 0. -/
theorem listen_ok_ne_zero (net : http.Net) (spec : http.AddrSpec) (a : Nat)
    (hl : http.listen net spec = Except.ok a) : a ≠ 0 := by
  cases spec with
  | invalid => simp [http.listen] at hl
  | port n =>
    cases n with
    | zero =>
      simp only [http.listen, http.freePort, Except.ok.injEq] at hl
      omega
    | succ m =>
      by_cases hm : m + 1 ∈ net
      · simp [http.listen, hm] at hl
      · simp only [http.listen, hm, if_false, Except.ok.injEq] at hl
        omega

/-- Port 0 and every port that is not bound can be bound. -/
theorem listen_ok_of_free (net : http.Net) (n : Nat) (h : n = 0 ∨ n ∉ net) :
    ∃ a, http.listen net (http.AddrSpec.port n) = Except.ok a ∧ (n ≠ 0 → a = n) := by
  cases n with
  | zero => exact ⟨http.freePort net, rfl, fun h0 => absurd rfl h0⟩
  | succ m =>
    have hm : m + 1 ∉ net := by
      rcases h with h | h
      · omega
      · exact h
    exact ⟨m + 1, by simp [http.listen, hm], fun _ => rfl⟩

/-- A port that is bound and is not 0 cannot be bound again. -/
theorem listen_in_use (net : http.Net) (a : Nat) (h0 : a ≠ 0) (hmem : a ∈ net) :
    http.listen net (http.AddrSpec.port a) = Except.error http.Error.addrInUse := by
  cases a with
  | zero => exact absurd rfl h0
  | succ m => simp [http.listen, hmem]

/-- The outcome of `Stop` is a fixed point of a further `Stop`. -/
theorem stop_thenStop (i : http.Inbound) (net : http.Net) :
    (i.Stop net).thenStop = i.Stop net := by
  cases hs : i.state <;> simp [http.Outcome.thenStop, http.Inbound.Stop, hs]

/-! ## The claims on the inbound lifecycle -/

/-- C7: for an inbound constructed on any address specification, Addr() is
absent before Start(); when Start() succeeds Addr() is present and is a concrete
bound port, never the configured port 0; the Stop() that follows returns no
error and Addr() is absent after it, the port being released; until that Stop()
the address stays, a further Start() leaving the running inbound as it is.
Start() does succeed on port 0 and on every port that is not bound. -/
theorem inbound_addr_lifecycle (spec : http.AddrSpec) (net : http.Net) :
    (http.NewInbound spec).Addr = none
      ∧ (((http.NewInbound spec).Start net).err = none →
          (∃ a, ((http.NewInbound spec).Start net).inbound.Addr = some a ∧ a ≠ 0
              ∧ a ∈ ((http.NewInbound spec).Start net).net)
            ∧ ((http.NewInbound spec).Start net).thenStop.err = none
            ∧ ((http.NewInbound spec).Start net).thenStop.inbound.Addr = none
            ∧ ((http.NewInbound spec).Start net).thenStop.net = net
            ∧ (((http.NewInbound spec).Start net).inbound.Start
                  ((http.NewInbound spec).Start net).net).inbound
                = ((http.NewInbound spec).Start net).inbound)
      ∧ (∀ n, spec = http.AddrSpec.port n → (n = 0 ∨ n ∉ net) →
          ((http.NewInbound spec).Start net).err = none) := by
  refine ⟨rfl, ?_, ?_⟩
  · intro hstart
    cases hl : http.listen net (http.NewInbound spec).addr with
    | error e =>
      rw [start_idle_of_listen_error _ net e rfl hl] at hstart
      simp at hstart
    | ok a =>
      rw [start_idle_of_listen_ok _ net a rfl hl]
      refine ⟨⟨a, rfl, listen_ok_ne_zero net _ a hl, List.mem_cons_self _ _⟩, rfl, rfl, ?_, rfl⟩
      simp [http.Outcome.thenStop, http.Inbound.Stop]
  · intro n hspec hfree
    obtain ⟨a, ha, _⟩ := listen_ok_of_free net n hfree
    subst hspec
    rw [start_idle_of_listen_ok _ net a rfl ha]

/-- Witness of C7: an inbound on port 0 of a host where port 8000 is bound is
started, gets port 8001, and is stopped. -/
theorem inbound_addr_lifecycle_witness :
    ((http.NewInbound (http.AddrSpec.port 0)).Start [8000]).inbound.Addr = some 8001
      ∧ ((http.NewInbound (http.AddrSpec.port 0)).Start [8000]).thenStop.inbound.Addr = none
      ∧ ((http.NewInbound (http.AddrSpec.port 0)).Start [8000]).thenStop.net = [8000] :=
  ⟨by decide,
    ((inbound_addr_lifecycle (http.AddrSpec.port 0) [8000]).2.1 (by decide)).2.2.1,
    ((inbound_addr_lifecycle (http.AddrSpec.port 0) [8000]).2.1 (by decide)).2.2.2.1⟩

/-- C8: Stop() on an idle inbound, also one that was constructed and never
started, returns no error and leaves the inbound as it was, idle with Addr()
absent, and the host untouched; after a first Stop() on any inbound the inbound
is idle, and any number of further calls of Stop() return no error and change
nothing. -/
theorem inbound_stop_idempotent (i : http.Inbound) (net : http.Net) (spec : http.AddrSpec)
    (k : Nat) :
    (i.state = http.State.idle →
        i.Stop net = { err := none, inbound := i, net := net } ∧ i.Addr = none)
      ∧ (http.NewInbound spec).Stop net
          = { err := none, inbound := http.NewInbound spec, net := net }
      ∧ (i.Stop net).err = none
      ∧ (i.Stop net).inbound.state = http.State.idle
      ∧ (i.Stop net).inbound.Addr = none
      ∧ http.Outcome.thenStop^[k] (i.Stop net) = i.Stop net := by
  refine ⟨?_, rfl, ?_, ?_, ?_, Function.iterate_fixed (stop_thenStop i net) k⟩
  · intro hidle
    simp [http.Inbound.Stop, http.Inbound.Addr, hidle]
  · cases hs : i.state <;> simp [http.Inbound.Stop, hs]
  · cases hs : i.state <;> simp [http.Inbound.Stop, hs]
  · cases hs : i.state <;> simp [http.Inbound.Stop, http.Inbound.Addr, hs]

/-- Witness of C8: an inbound on port 8000 that was never started is stopped
three times. -/
theorem inbound_stop_idempotent_witness :
    (http.NewInbound (http.AddrSpec.port 8000)).Stop []
        = { err := none, inbound := http.NewInbound (http.AddrSpec.port 8000), net := [] }
      ∧ http.Outcome.thenStop^[2] ((http.NewInbound (http.AddrSpec.port 8000)).Stop [])
        = (http.NewInbound (http.AddrSpec.port 8000)).Stop [] :=
  ⟨((inbound_stop_idempotent (http.NewInbound (http.AddrSpec.port 8000)) []
      (http.AddrSpec.port 8000) 2).1 rfl).1,
    (inbound_stop_idempotent (http.NewInbound (http.AddrSpec.port 8000)) []
      (http.AddrSpec.port 8000) 2).2.2.2.2.2⟩

/-- C9: Start() on an idle inbound whose address cannot be bound returns the
error of the bind and leaves the inbound idle with Addr() absent and the host
untouched; an invalid address cannot be bound; and when a first inbound has
been started, Start() on a second inbound configured with the first one's bound
address returns the address-in-use error, leaves the second idle with Addr()
absent, leaves the host's bound ports as they were, the first one's among them,
and the later Stop() of the first returns no error. -/
theorem inbound_start_bind_failure (net : http.Net) (n : Nat) (hfree : n = 0 ∨ n ∉ net) :
    (∀ (i : http.Inbound) (e : http.Error), i.state = http.State.idle →
        http.listen net i.addr = Except.error e →
        i.Start net = { err := some e, inbound := i, net := net } ∧ i.Addr = none)
      ∧ (http.NewInbound http.AddrSpec.invalid).Start net
          = { err := some http.Error.invalidAddr
              inbound := http.NewInbound http.AddrSpec.invalid
              net := net }
      ∧ ((http.NewInbound (http.AddrSpec.port n)).Start net).err = none
      ∧ ∃ a, ((http.NewInbound (http.AddrSpec.port n)).Start net).inbound.Addr = some a
          ∧ (http.NewInbound (http.AddrSpec.port a)).Start
                ((http.NewInbound (http.AddrSpec.port n)).Start net).net
              = { err := some http.Error.addrInUse
                  inbound := http.NewInbound (http.AddrSpec.port a)
                  net := ((http.NewInbound (http.AddrSpec.port n)).Start net).net }
          ∧ (http.NewInbound (http.AddrSpec.port a)).Addr = none
          ∧ a ∈ ((http.NewInbound (http.AddrSpec.port n)).Start net).net
          ∧ ((http.NewInbound (http.AddrSpec.port n)).Start net).thenStop.err = none
          ∧ ((http.NewInbound (http.AddrSpec.port n)).Start net).thenStop.inbound.Addr
              = none := by
  obtain ⟨a, ha, _⟩ := listen_ok_of_free net n hfree
  have ha0 : a ≠ 0 := listen_ok_ne_zero net _ a ha
  have hs1 := start_idle_of_listen_ok (http.NewInbound (http.AddrSpec.port n)) net a rfl ha
  refine ⟨?_, ?_, ?_, a, ?_, ?_, rfl, ?_, ?_, ?_⟩
  · intro i e hidle hl
    exact ⟨start_idle_of_listen_error i net e hidle hl, by simp [http.Inbound.Addr, hidle]⟩
  · exact start_idle_of_listen_error _ net _ rfl rfl
  · rw [hs1]
  · rw [hs1]; rfl
  · rw [hs1]
    exact start_idle_of_listen_error _ _ _ rfl
      (listen_in_use (a :: net) a ha0 (List.mem_cons_self _ _))
  · rw [hs1]; exact List.mem_cons_self _ _
  · rw [hs1]; rfl
  · rw [hs1]; rfl

/-- Witness of C9: a first inbound on port 0 of an empty host gets port 1; a
second inbound on port 1 fails to start with the address-in-use error. -/
theorem inbound_start_bind_failure_witness :
    (http.NewInbound (http.AddrSpec.port 1)).Start [1]
        = { err := some http.Error.addrInUse
            inbound := http.NewInbound (http.AddrSpec.port 1)
            net := [1] }
      ∧ (http.NewInbound http.AddrSpec.invalid).Start []
        = { err := some http.Error.invalidAddr
            inbound := http.NewInbound http.AddrSpec.invalid
            net := [] } :=
  ⟨((inbound_start_bind_failure [1] 0 (Or.inl rfl)).1
      (http.NewInbound (http.AddrSpec.port 1)) http.Error.addrInUse rfl rfl).1,
    (inbound_start_bind_failure [] 0 (Or.inl rfl)).2.1⟩
